import Mathlib

/-!
Verification development for keepassx_backup_tool (a one-shot Google Drive
backup tool for a single local KeePassX database file).

The development shallowly embeds the program (src/keepassx_backup_tool.go):
pure helpers become Lean functions, the remote Drive service is modelled as a
list of file records with the list/create/update operations the program uses,
and the single run of main becomes a function from the initial remote state
and the local file contents to a run result recording the exit status, the
final remote state, the remote-write calls issued, and whether the local file
handle was opened and closed.

Machine integers are modelled as Nat with explicit reduction mod 2 ^ 32 and
mod 2 ^ 64 where the MD5 computation overflows; bytes are Nat values reduced
mod 256 where they are consumed.
-/

namespace KeepassxBackup

/-! ### MD5 (crypto/md5 + encoding/hex as used at lines 160-168)

The program fingerprints the local file with `md5.New()`, `io.Copy`, and
`hex.EncodeToString(hash.Sum(nil))`.  The MD5 digest (RFC 1321) is embedded
here as an executable function on byte lists so that the hash comparisons of
the program can be evaluated on concrete inputs. -/

def mask32 : Nat := 4294967296

/-- Bitwise complement on 32-bit words represented as Nat below 2 ^ 32. -/
def not32 (x : Nat) : Nat := 4294967295 - x % mask32

/-- Left rotation of a 32-bit word by s bits (0 < s < 32). -/
def rotl32 (x s : Nat) : Nat :=
  ((x % mask32) * 2 ^ s + (x % mask32) / 2 ^ (32 - s)) % mask32

/-- Round constants K of MD5: floor(abs(sin(i + 1)) * 2 ^ 32). -/
def md5K : List Nat :=
  [0xd76aa478, 0xe8c7b756, 0x242070db, 0xc1bdceee,
   0xf57c0faf, 0x4787c62a, 0xa8304613, 0xfd469501,
   0x698098d8, 0x8b44f7af, 0xffff5bb1, 0x895cd7be,
   0x6b901122, 0xfd987193, 0xa679438e, 0x49b40821,
   0xf61e2562, 0xc040b340, 0x265e5a51, 0xe9b6c7aa,
   0xd62f105d, 0x02441453, 0xd8a1e681, 0xe7d3fbc8,
   0x21e1cde6, 0xc33707d6, 0xf4d50d87, 0x455a14ed,
   0xa9e3e905, 0xfcefa3f8, 0x676f02d9, 0x8d2a4c8a,
   0xfffa3942, 0x8771f681, 0x6d9d6122, 0xfde5380c,
   0xa4beea44, 0x4bdecfa9, 0xf6bb4b60, 0xbebfbc70,
   0x289b7ec6, 0xeaa127fa, 0xd4ef3085, 0x04881d05,
   0xd9d4d039, 0xe6db99e5, 0x1fa27cf8, 0xc4ac5665,
   0xf4292244, 0x432aff97, 0xab9423a7, 0xfc93a039,
   0x655b59c3, 0x8f0ccc92, 0xffeff47d, 0x85845dd1,
   0x6fa87e4f, 0xfe2ce6e0, 0xa3014314, 0x4e0811a1,
   0xf7537e82, 0xbd3af235, 0x2ad7d2bb, 0xeb86d391]

/-- Per-round left-rotation amounts of MD5. -/
def md5S : List Nat :=
  [7, 12, 17, 22, 7, 12, 17, 22, 7, 12, 17, 22, 7, 12, 17, 22,
   5, 9, 14, 20, 5, 9, 14, 20, 5, 9, 14, 20, 5, 9, 14, 20,
   4, 11, 16, 23, 4, 11, 16, 23, 4, 11, 16, 23, 4, 11, 16, 23,
   6, 10, 15, 21, 6, 10, 15, 21, 6, 10, 15, 21, 6, 10, 15, 21]

/-- Little-endian 32-bit word number g of a 64-byte chunk. -/
def wordAt (chunk : List Nat) (g : Nat) : Nat :=
  (chunk.getD (4 * g) 0) % 256 +
    256 * ((chunk.getD (4 * g + 1) 0) % 256) +
    65536 * ((chunk.getD (4 * g + 2) 0) % 256) +
    16777216 * ((chunk.getD (4 * g + 3) 0) % 256)

/-- One of the 64 MD5 round steps, acting on the state (a, b, c, d). -/
def md5Step (chunk : List Nat) (st : Nat × Nat × Nat × Nat) (i : Nat) :
    Nat × Nat × Nat × Nat :=
  match st with
  | (a, b, c, d) =>
    let f :=
      if i < 16 then (b &&& c) ||| (not32 b &&& d)
      else if i < 32 then (d &&& b) ||| (not32 d &&& c)
      else if i < 48 then b ^^^ c ^^^ d
      else c ^^^ (b ||| not32 d)
    let g :=
      if i < 16 then i
      else if i < 32 then (5 * i + 1) % 16
      else if i < 48 then (3 * i + 5) % 16
      else (7 * i) % 16
    let tmp := (f + a + md5K.getD i 0 + wordAt chunk g) % mask32
    (d, (b + rotl32 tmp (md5S.getD i 0)) % mask32, b, c)

/-- Processing of one padded 64-byte chunk: 64 round steps, then the
    wrap-around addition of the incoming state. -/
def md5ProcessChunk (st : Nat × Nat × Nat × Nat) (chunk : List Nat) :
    Nat × Nat × Nat × Nat :=
  match st with
  | (a0, b0, c0, d0) =>
    match (List.range 64).foldl (md5Step chunk) (a0, b0, c0, d0) with
    | (a, b, c, d) =>
      ((a0 + a) % mask32, (b0 + b) % mask32, (c0 + c) % mask32, (d0 + d) % mask32)

/-- Split of a padded message into 64-byte chunks, driven by a fuel argument
    that the caller sets to the message length. -/
def chunksAux : Nat → List Nat → List (List Nat)
  | 0, _ => []
  | _, [] => []
  | Nat.succ fuel, bs => bs.take 64 :: chunksAux fuel (bs.drop 64)

/-- Low k bytes of n in little-endian order. -/
def leBytes (n : Nat) : Nat → List Nat
  | 0 => []
  | Nat.succ k => n % 256 :: leBytes (n / 256) k

/-- MD5 padding: the byte 0x80, zeros up to 56 mod 64, then the bit length
    as a little-endian 64-bit quantity. -/
def md5Pad (bs : List Nat) : List Nat :=
  let l := bs.length
  let zeros := (119 - l % 64) % 64
  bs ++ [128] ++ List.replicate zeros 0 ++ leBytes ((8 * l) % 2 ^ 64) 8

/-- MD5 digest of a byte list, as the 16 output bytes. -/
def md5Bytes (bs : List Nat) : List Nat :=
  let padded := md5Pad bs
  match (chunksAux padded.length padded).foldl md5ProcessChunk
      (0x67452301, 0xefcdab89, 0x98badcfe, 0x10325476) with
  | (a, b, c, d) => leBytes a 4 ++ leBytes b 4 ++ leBytes c 4 ++ leBytes d 4

/-- Lower-case hexadecimal digit for n < 16. -/
def hexChar (n : Nat) : Char :=
  if n < 10 then Char.ofNat (48 + n) else Char.ofNat (87 + n)

/-- Two-digit lower-case hexadecimal rendering of one byte. -/
def byteHex (b : Nat) : String :=
  String.mk [hexChar (b / 16 % 16), hexChar (b % 16)]

/-- Hex-encoded MD5 digest of a byte list: the composite of md5.Sum and
    hex.EncodeToString as the program applies them at line 168. -/
def md5hex (bs : List Nat) : String :=
  String.join ((md5Bytes bs).map byteHex)

/-! ### Remote Drive model

The program consumes the Drive v3 API through list/create/update calls.  The
remote state is a list of file records carrying the fields the program reads
or writes: id, name, mimeType, parents, md5Checksum, and the content bytes.
Per the documented API contract, the service computes the md5Checksum of
uploaded media and places a file created without parents under root. -/

structure DriveFile where
  id : String
  name : String
  mimeType : String
  parents : List String
  md5Checksum : String
  content : List Nat
deriving Repr, DecidableEq

abbrev DriveState := List DriveFile

def folderMime : String := "application/vnd.google-apps.folder"

/-- Predicate of the folder query at line 127: mimeType folder, name
    automatic_backups, root in parents. -/
def folderQuery (f : DriveFile) : Bool :=
  decide (f.mimeType = folderMime ∧ f.name = "automatic_backups" ∧ "root" ∈ f.parents)

/-- The files returned by the folder list call (line 128). -/
def listFolders (st : DriveState) : List DriveFile :=
  st.filter folderQuery

/-- Predicate of the file query at line 176: given name, given parent. -/
def fileQuery (name folderId : String) (f : DriveFile) : Bool :=
  decide (f.name = name ∧ folderId ∈ f.parents)

/-- The files returned by the file list call (line 177). -/
def listFiles (st : DriveState) (name folderId : String) : List DriveFile :=
  st.filter (fileQuery name folderId)

/-- Drive Files.Create semantics: a new record is appended; the service
    derives md5Checksum from the uploaded media and defaults the parent to
    root when the metadata names none. -/
def driveCreate (st : DriveState) (newId name mime : String)
    (parents : List String) (media : List Nat) : DriveState :=
  st ++ [⟨newId, name, mime, if parents.isEmpty then ["root"] else parents,
          md5hex media, media⟩]

/-- The record an existing file turns into under Files.Update with the
    metadata name and fresh media the program supplies at lines 191-192:
    parents and id are untouched, content and md5Checksum are replaced. -/
def updFile (f : DriveFile) (name : String) (media : List Nat) : DriveFile :=
  ⟨f.id, name, f.mimeType, f.parents, md5hex media, media⟩

/-- Drive Files.Update semantics for the call the program makes. -/
def driveUpdate (st : DriveState) (fileId name : String) (media : List Nat) :
    DriveState :=
  st.map fun f => if f.id = fileId then updFile f name media else f

/-! ### One run of main (lines 96-218)

Argument parsing, secret-file reading, and client construction precede the
sync logic and are covered by the credential-manager model below; the sync
run is modelled from the folder query at line 127 onward.  The local file is
an Option: none models a failed os.Open at line 153.  Remote list/create/
update calls are modelled as succeeding, as the spec treats the service as
an opaque collaborator; local fatal paths (open failure, empty file) are
kept.  log.Fatalf prints and then calls os.Exit, which terminates the
process without running deferred functions, so a fatal exit after the open
at line 153 leaves the deferred ringFile.Close() of line 154 unexecuted;
the fileClosed field records whether the deferred close ran. -/

inductive ExitStatus
  | normal
  | fatal (msg : String)
deriving Repr, DecidableEq

inductive RemoteWrite
  | createFolder (id : String)
  | createFile (id : String)
  | updateFile (id : String)
deriving Repr, DecidableEq

def RemoteWrite.isCreateFolder : RemoteWrite → Bool
  | RemoteWrite.createFolder _ => true
  | _ => false

def RemoteWrite.isCreateFile : RemoteWrite → Bool
  | RemoteWrite.createFile _ => true
  | _ => false

def RemoteWrite.isUpdateFile : RemoteWrite → Bool
  | RemoteWrite.updateFile _ => true
  | _ => false

structure RunResult where
  exit : ExitStatus
  drive : DriveState
  writes : List RemoteWrite
  fileOpened : Bool
  fileClosed : Bool
deriving Repr, DecidableEq

/-- The backups folder id the run uses (lines 136-151): the id of the first
    result of the folder query when there is one, else the id of the folder
    the run creates. -/
def resolvedFolderId (st : DriveState) (newFolderId : String) : String :=
  match listFolders st with
  | [] => newFolderId
  | f :: _ => f.id

/-- The remote state after folder resolution: unchanged when the folder
    query matched, else with the automatic_backups folder created (line 144,
    metadata name and mimeType only, so the service places it under root). -/
def stateAfterFolder (st : DriveState) (newFolderId : String) : DriveState :=
  match listFolders st with
  | [] => driveCreate st newFolderId "automatic_backups" folderMime [] []
  | _ :: _ => st

/-- The remote-write calls folder resolution issues. -/
def folderWrites (st : DriveState) (newFolderId : String) : List RemoteWrite :=
  match listFolders st with
  | [] => [RemoteWrite.createFolder newFolderId]
  | _ :: _ => []

/-- Well-known hex MD5 of the empty input, against which line 172 compares. -/
def emptyMd5Hex : String := "d41d8cd98f00b204e9800998ecf8427e"

/-- The part of the run from the hash computation at line 160 onward, for a
    local file that was opened with contents bytes.  newFolderId and
    newFileId are the identifiers the service would assign to a folder or
    file created during this run. -/
def runSyncBytes (st0 : DriveState) (bytes : List Nat)
    (ringFileName newFolderId newFileId : String) : RunResult :=
  if md5hex bytes = emptyMd5Hex then
      -- line 172: the empty-file guard fires after the file was opened;
      -- log.Fatalf skips the deferred close
      ⟨ExitStatus.fatal "File .kdbx is empty",
        stateAfterFolder st0 newFolderId, folderWrites st0 newFolderId,
        true, false⟩
    else
      match listFiles (stateAfterFolder st0 newFolderId) ringFileName
          (resolvedFolderId st0 newFolderId) with
      | [] =>
        -- lines 202-213: no remote match, create the file under the folder
        ⟨ExitStatus.normal,
          driveCreate (stateAfterFolder st0 newFolderId) newFileId
            ringFileName "" [resolvedFolderId st0 newFolderId] bytes,
          folderWrites st0 newFolderId ++ [RemoteWrite.createFile newFileId],
          true, true⟩
      | first :: _ =>
        if first.md5Checksum = md5hex bytes then
          -- line 200: hashes agree, nothing but a log line
          ⟨ExitStatus.normal, stateAfterFolder st0 newFolderId,
            folderWrites st0 newFolderId, true, true⟩
        else
          -- lines 186-198: in-place update of the first match
          ⟨ExitStatus.normal,
            driveUpdate (stateAfterFolder st0 newFolderId) first.id
              ringFileName bytes,
            folderWrites st0 newFolderId ++
              [RemoteWrite.updateFile first.id],
            true, true⟩

/-- One sync run of main from the folder query at line 127 to the end.  The
    local file is none when os.Open at line 153 fails. -/
def runSync (st0 : DriveState) (localFile : Option (List Nat))
    (ringFileName newFolderId newFileId : String) : RunResult :=
  match localFile with
  | none =>
    -- os.Open failed (line 157): log.Fatalf exits, no defer execution
    ⟨ExitStatus.fatal "Unable to open .kdbx file",
      stateAfterFolder st0 newFolderId, folderWrites st0 newFolderId,
      false, false⟩
  | some bytes => runSyncBytes st0 bytes ringFileName newFolderId newFileId

/-! ### Credential manager (lines 24-94)

The filesystem, console, and OAuth endpoint are external; their outcomes are
inputs of the model.  tokenFromFile (lines 73-82) returns the decode outcome
of the cache file when the open succeeded.  getTokenFromWeb (lines 41-56)
prints the authorization URL, blocks on operator input, and exchanges the
code.  saveToken (lines 86-94) is fatal only when os.Create fails; the error
of json.NewEncoder(f).Encode(token) at line 93 is discarded, which the
encodeOk parameter records by provably not influencing the outcome. -/

structure Token where
  accessToken : String
  tokenType : String
  refreshToken : String
  expiry : Nat
deriving Repr, DecidableEq

/-- The token the Go json decoder yields for a record with no fields, such
    as the literal text consisting of an opening and a closing brace: every
    field keeps its zero value, the expiry included. -/
def emptyRecordToken : Token := ⟨"", "", "", 0⟩

/-- tokenFromFile: open outcome of the cache file, then the json decode
    outcome of its contents; the deferred close always runs since the
    function returns normally either way. -/
def tokenFromFile (openOk : Bool) (decoded : Except String Token) :
    Except String Token :=
  if openOk then decoded else Except.error "open failed"

/-- saveToken: fatal when os.Create fails (line 90); the Encode error is
    dropped (line 93), so the outcome is independent of encodeOk. -/
def saveToken (createOk : Bool) (encodeOk : Bool) : ExitStatus :=
  if createOk then ExitStatus.normal
  else ExitStatus.fatal "Unable to cache oauth token"

structure GetClientResult where
  exit : ExitStatus
  token : Token
  printedAuthURL : Bool
  readAuthCode : Bool
  savedTokenFile : Bool
deriving Repr, DecidableEq

/-- getClient (lines 26-37): cache-path computation, cache read, and on any
    cache-read failure the interactive flow followed by saveToken.  The
    returned token is the one the generated client wraps. -/
def getClient (pathOk openOk : Bool) (decoded : Except String Token)
    (scanOk : Bool) (exchanged : Except String Token)
    (createOk encodeOk : Bool) : GetClientResult :=
  if pathOk then
    match tokenFromFile openOk decoded with
    | Except.ok tok => ⟨ExitStatus.normal, tok, false, false, false⟩
    | Except.error _ =>
      -- getTokenFromWeb: the URL is printed first, then fmt.Scan blocks
      if scanOk then
        match exchanged with
        | Except.error _ =>
          ⟨ExitStatus.fatal "Unable to retrieve token from web",
            emptyRecordToken, true, true, false⟩
        | Except.ok tok =>
          match saveToken createOk encodeOk with
          | ExitStatus.fatal m => ⟨ExitStatus.fatal m, emptyRecordToken, true, true, false⟩
          | ExitStatus.normal => ⟨ExitStatus.normal, tok, true, true, true⟩
      else
        ⟨ExitStatus.fatal "Unable to read authorization code",
          emptyRecordToken, true, true, false⟩
  else
    ⟨ExitStatus.fatal "Unable to get path to cached credential file",
      emptyRecordToken, false, false, false⟩

/-! ### Supporting lemmas -/

lemma md5hex_nil : md5hex [] = emptyMd5Hex := by decide

lemma fileQuery_true_iff (name fid : String) (f : DriveFile) :
    fileQuery name fid f = true ↔ f.name = name ∧ fid ∈ f.parents := by
  simp [fileQuery]

lemma listFiles_append (st1 st2 : DriveState) (name fid : String) :
    listFiles (st1 ++ st2) name fid =
      listFiles st1 name fid ++ listFiles st2 name fid :=
  List.filter_append ..

lemma listFolders_append (st1 st2 : DriveState) :
    listFolders (st1 ++ st2) = listFolders st1 ++ listFolders st2 :=
  List.filter_append ..

/-- The record created for the automatic_backups folder (line 143) matches
    the folder query of line 127. -/
lemma folderQuery_created (nfid h : String) :
    folderQuery ⟨nfid, "automatic_backups", folderMime, ["root"], h, []⟩ = true := by
  simp [folderQuery]

/-- The record created for the backed-up file (line 204) is not a folder. -/
lemma folderQuery_createdFile (nid name fid h : String) (bytes : List Nat) :
    folderQuery ⟨nid, name, "", [fid], h, bytes⟩ = false := by
  simp [folderQuery, folderMime]

/-- Equation of runSync on a failed local open. -/
lemma runSync_none (st0 : DriveState) (name nfid nid : String) :
    runSync st0 none name nfid nid =
      ⟨ExitStatus.fatal "Unable to open .kdbx file",
        stateAfterFolder st0 nfid, folderWrites st0 nfid, false, false⟩ := rfl

/-- Equation of runSync when the local hash is the empty-input hash. -/
lemma runSync_empty (st0 : DriveState) (bytes : List Nat) (name nfid nid : String)
    (he : md5hex bytes = emptyMd5Hex) :
    runSync st0 (some bytes) name nfid nid =
      ⟨ExitStatus.fatal "File .kdbx is empty",
        stateAfterFolder st0 nfid, folderWrites st0 nfid, true, false⟩ := by
  show runSyncBytes st0 bytes name nfid nid = _
  unfold runSyncBytes
  rw [if_pos he]

/-- Equation of runSync on the create branch (no remote match). -/
lemma runSync_create (st0 : DriveState) (bytes : List Nat) (name nfid nid : String)
    (hne : md5hex bytes ≠ emptyMd5Hex)
    (hm : listFiles (stateAfterFolder st0 nfid) name (resolvedFolderId st0 nfid) = []) :
    runSync st0 (some bytes) name nfid nid =
      ⟨ExitStatus.normal,
        driveCreate (stateAfterFolder st0 nfid) nid name ""
          [resolvedFolderId st0 nfid] bytes,
        folderWrites st0 nfid ++ [RemoteWrite.createFile nid], true, true⟩ := by
  show runSyncBytes st0 bytes name nfid nid = _
  unfold runSyncBytes
  rw [if_neg hne, hm]

/-- Equation of runSync on the no-op branch (match with equal hash). -/
lemma runSync_noop (st0 : DriveState) (bytes : List Nat) (name nfid nid : String)
    (first : DriveFile) (rest : List DriveFile)
    (hne : md5hex bytes ≠ emptyMd5Hex)
    (hm : listFiles (stateAfterFolder st0 nfid) name (resolvedFolderId st0 nfid) =
      first :: rest)
    (heq : first.md5Checksum = md5hex bytes) :
    runSync st0 (some bytes) name nfid nid =
      ⟨ExitStatus.normal, stateAfterFolder st0 nfid,
        folderWrites st0 nfid, true, true⟩ := by
  show runSyncBytes st0 bytes name nfid nid = _
  unfold runSyncBytes
  rw [if_neg hne, hm]
  simp [heq]

/-- Equation of runSync on the update branch (match with differing hash). -/
lemma runSync_update (st0 : DriveState) (bytes : List Nat) (name nfid nid : String)
    (first : DriveFile) (rest : List DriveFile)
    (hne : md5hex bytes ≠ emptyMd5Hex)
    (hm : listFiles (stateAfterFolder st0 nfid) name (resolvedFolderId st0 nfid) =
      first :: rest)
    (hdiff : first.md5Checksum ≠ md5hex bytes) :
    runSync st0 (some bytes) name nfid nid =
      ⟨ExitStatus.normal,
        driveUpdate (stateAfterFolder st0 nfid) first.id name bytes,
        folderWrites st0 nfid ++ [RemoteWrite.updateFile first.id], true, true⟩ := by
  show runSyncBytes st0 bytes name nfid nid = _
  unfold runSyncBytes
  rw [if_neg hne, hm]
  simp [hdiff]

/-- After driveUpdate of the first query match, the file query still has a
    first match and that match carries the hash of the uploaded bytes:
    earlier list entries either keep failing the query or are themselves
    rewritten to records carrying the fresh hash. -/
lemma head_filter_driveUpdate (q : DriveFile → Bool) (first : DriveFile)
    (name : String) (bytes : List Nat)
    (hfirst : q (updFile first name bytes) = true) :
    ∀ (l : List DriveFile) (rest : List DriveFile), l.filter q = first :: rest →
      ∃ f fs, (driveUpdate l first.id name bytes).filter q = f :: fs ∧
        f.md5Checksum = md5hex bytes := by
  intro l
  induction l with
  | nil => intro rest hfil; simp at hfil
  | cons x xs ih =>
    intro rest hfil
    by_cases hid : x.id = first.id
    · cases hqx : q x with
      | true =>
        have hx : x = first := by
          rw [List.filter_cons_of_pos hqx] at hfil
          exact (List.cons_eq_cons.mp hfil).1
        refine ⟨updFile first name bytes, (driveUpdate xs first.id name bytes).filter q, ?_, rfl⟩
        simp only [driveUpdate, List.map_cons, List.filter_cons, if_pos hid, hx, hfirst]
        simp [driveUpdate, hfirst]
      | false =>
        rw [List.filter_cons_of_neg (by simp [hqx])] at hfil
        cases hqu : q (updFile x name bytes) with
        | true =>
          refine ⟨updFile x name bytes, (driveUpdate xs first.id name bytes).filter q, ?_, rfl⟩
          simp only [driveUpdate, List.map_cons, if_pos hid]
          simp [List.filter_cons, hqu, driveUpdate]
        | false =>
          obtain ⟨f, fs, hf, hmd⟩ := ih rest hfil
          refine ⟨f, fs, ?_, hmd⟩
          simp only [driveUpdate, List.map_cons, if_pos hid]
          rw [List.filter_cons_of_neg (by simp [hqu])]
          exact hf
    · cases hqx : q x with
      | true =>
        have hx : x = first := by
          rw [List.filter_cons_of_pos hqx] at hfil
          exact (List.cons_eq_cons.mp hfil).1
        exact absurd (congrArg DriveFile.id hx) hid
      | false =>
        rw [List.filter_cons_of_neg (by simp [hqx])] at hfil
        obtain ⟨f, fs, hf, hmd⟩ := ih rest hfil
        refine ⟨f, fs, ?_, hmd⟩
        simp only [driveUpdate, List.map_cons, if_neg hid]
        rw [List.filter_cons_of_neg (by simp [hqx])]
        exact hf

/-- When ids are unique in the state, driveUpdate of a record whose updated
    form matches the query exactly when the old form did preserves the
    number of query matches. -/
lemma length_filter_driveUpdate (q : DriveFile → Bool) (first : DriveFile)
    (name : String) (bytes : List Nat)
    (hq : q (updFile first name bytes) = q first) :
    ∀ l : List DriveFile, (∀ x ∈ l, x.id = first.id → x = first) →
      ((driveUpdate l first.id name bytes).filter q).length =
        (l.filter q).length := by
  intro l
  induction l with
  | nil => intro _; rfl
  | cons x xs ih =>
    intro huniq
    have hxs := fun y hy => huniq y (List.mem_cons_of_mem _ hy)
    by_cases hid : x.id = first.id
    · have hx : x = first := huniq x (List.mem_cons_self ..) hid
      subst hx
      simp only [driveUpdate, List.map_cons]
      rw [if_true]
      cases hqx : q x with
      | true =>
        rw [List.filter_cons_of_pos (by rw [hq]; exact hqx),
          List.filter_cons_of_pos hqx]
        simpa [driveUpdate] using ih hxs
      | false =>
        rw [List.filter_cons_of_neg (by simp [hq, hqx]),
          List.filter_cons_of_neg (by simp [hqx])]
        simpa [driveUpdate] using ih hxs
    · simp only [driveUpdate, List.map_cons]
      rw [if_neg hid]
      cases hqx : q x with
      | true =>
        rw [List.filter_cons_of_pos hqx, List.filter_cons_of_pos hqx]
        simpa [driveUpdate] using ih hxs
      | false =>
        rw [List.filter_cons_of_neg (by simp [hqx]),
          List.filter_cons_of_neg (by simp [hqx])]
        simpa [driveUpdate] using ih hxs

/-- The folder list after folder resolution is never empty, and its first
    entry carries the id the run resolved. -/
lemma listFolders_stateAfterFolder (st0 : DriveState) (nfid : String) :
    ∃ f fs, listFolders (stateAfterFolder st0 nfid) = f :: fs ∧
      f.id = resolvedFolderId st0 nfid := by
  unfold stateAfterFolder resolvedFolderId
  cases hfold : listFolders st0 with
  | nil =>
    refine ⟨⟨nfid, "automatic_backups", folderMime, ["root"], md5hex [], []⟩,
      [], ?_, rfl⟩
    unfold driveCreate
    rw [listFolders_append, hfold]
    simp [listFolders, List.filter_cons, folderQuery, folderMime]
  | cons f fs => exact ⟨f, fs, hfold, rfl⟩

/-- When the folder query matches, resolution returns the first match id. -/
lemma resolvedFolderId_of_cons (st : DriveState) (nfid : String)
    (f : DriveFile) (fs : List DriveFile) (h : listFolders st = f :: fs) :
    resolvedFolderId st nfid = f.id := by
  unfold resolvedFolderId
  rw [h]

/-- When the folder query matches, resolution leaves the state unchanged. -/
lemma stateAfterFolder_of_cons (st : DriveState) (nfid : String)
    (f : DriveFile) (fs : List DriveFile) (h : listFolders st = f :: fs) :
    stateAfterFolder st nfid = st := by
  unfold stateAfterFolder
  rw [h]

/-- When the folder query matches, resolution issues no remote write. -/
lemma folderWrites_of_cons (st : DriveState) (nfid : String)
    (f : DriveFile) (fs : List DriveFile) (h : listFolders st = f :: fs) :
    folderWrites st nfid = [] := by
  unfold folderWrites
  rw [h]

/-- Appending a record the folder query rejects leaves the folder list
    unchanged. -/
lemma listFolders_append_nonfolder (st : DriveState) (g : DriveFile)
    (hg : folderQuery g = false) :
    listFolders (st ++ [g]) = listFolders st := by
  rw [listFolders_append]
  simp [listFolders, List.filter_cons, hg]

/-- The createFolder writes issued by a run are exactly those of folder
    resolution. -/
lemma filter_isCreateFolder_writes (st0 : DriveState) (lf : Option (List Nat))
    (name nfid nid : String) :
    (runSync st0 lf name nfid nid).writes.filter RemoteWrite.isCreateFolder =
      folderWrites st0 nfid := by
  have hfw : (folderWrites st0 nfid).filter RemoteWrite.isCreateFolder =
      folderWrites st0 nfid := by
    unfold folderWrites
    cases listFolders st0 <;> simp [RemoteWrite.isCreateFolder]
  cases lf with
  | none => exact hfw
  | some bytes =>
    by_cases he : md5hex bytes = emptyMd5Hex
    · rw [runSync_empty st0 bytes name nfid nid he]; exact hfw
    · cases hm : listFiles (stateAfterFolder st0 nfid) name
          (resolvedFolderId st0 nfid) with
      | nil =>
        rw [runSync_create st0 bytes name nfid nid he hm]
        simpa [List.filter_append, RemoteWrite.isCreateFolder] using hfw
      | cons first rest =>
        by_cases heq : first.md5Checksum = md5hex bytes
        · rw [runSync_noop st0 bytes name nfid nid first rest he hm heq]
          exact hfw
        · rw [runSync_update st0 bytes name nfid nid first rest he hm heq]
          simpa [List.filter_append, RemoteWrite.isCreateFolder] using hfw

/-! ### The claims -/

/-- Claim C8, counterexample: when os.Create succeeds but serializing and
    writing the token fails, saveToken returns normally instead of
    terminating fatally, because the error of Encode at line 93 is
    discarded. -/
theorem C8_counterexample :
    saveToken true false = ExitStatus.normal ∧
      saveToken true false ≠ ExitStatus.fatal "Unable to cache oauth token" := by
  decide

/-- Claim C8, amended: saveToken terminates fatally exactly when the cache
    file cannot be created; a failure of serializing or writing the token
    into the created file is ignored and the function returns normally. -/
theorem C8_fatal_iff_create_fails (createOk encodeOk : Bool) :
    saveToken createOk encodeOk = ExitStatus.fatal "Unable to cache oauth token"
      ↔ createOk = false := by
  cases createOk <;> simp [saveToken]

/-- Claim C9: whenever a token is read and deserialized from the cache file,
    getClient performs no interactive flow: the authorization URL is not
    printed, no operator input is read, the cache is not rewritten, and the
    returned client wraps exactly the cached token. -/
theorem C9_cached_token_skips_interactive (openOk : Bool)
    (decoded : Except String Token) (scanOk : Bool)
    (exchanged : Except String Token) (createOk encodeOk : Bool) (tok : Token)
    (h : tokenFromFile openOk decoded = Except.ok tok) :
    getClient true openOk decoded scanOk exchanged createOk encodeOk =
      ⟨ExitStatus.normal, tok, false, false, false⟩ := by
  simp [getClient, h]

theorem C9_witness :
    tokenFromFile true (Except.ok (⟨"acc", "Bearer", "ref", 99⟩ : Token)) =
      Except.ok (⟨"acc", "Bearer", "ref", 99⟩ : Token) ∧
    getClient true true (Except.ok (⟨"acc", "Bearer", "ref", 99⟩ : Token))
        true (Except.ok (⟨"x", "y", "z", 7⟩ : Token)) true true =
      ⟨ExitStatus.normal, ⟨"acc", "Bearer", "ref", 99⟩, false, false, false⟩ :=
  ⟨rfl, C9_cached_token_skips_interactive true (Except.ok ⟨"acc", "Bearer", "ref", 99⟩)
    true (Except.ok ⟨"x", "y", "z", 7⟩) true true ⟨"acc", "Bearer", "ref", 99⟩ rfl⟩

/-- Claim C10: cache-token acceptance is purely syntactic.  For every decode
    outcome that succeeds — whatever the field values, including the token
    every field of which has its zero value, as decoding a record with no
    fields yields, and tokens whose expiry lies in the past — getClient
    accepts the decoded token, skips the interactive flow, and does not
    re-save the cache file. -/
theorem C10_cache_acceptance_syntactic (a t r : String) (e : Nat)
    (scanOk : Bool) (exchanged : Except String Token) (createOk encodeOk : Bool) :
    getClient true true (Except.ok (⟨a, t, r, e⟩ : Token)) scanOk exchanged
        createOk encodeOk =
      ⟨ExitStatus.normal, ⟨a, t, r, e⟩, false, false, false⟩ ∧
    getClient true true (Except.ok emptyRecordToken) scanOk exchanged
        createOk encodeOk =
      ⟨ExitStatus.normal, emptyRecordToken, false, false, false⟩ := by
  constructor <;> simp [getClient, tokenFromFile]

/-- Claim C2, counterexample: with an empty local file and no pre-existing
    backup folder, the run creates the automatic_backups folder — a
    remote-write call — before the empty-file guard terminates it, because
    folder resolution (lines 127-151) precedes the hash check (line 172). -/
theorem C2_counterexample :
    (runSync [] (some []) "k.kdbx" "F1" "N1").exit =
      ExitStatus.fatal "File .kdbx is empty" ∧
    RemoteWrite.createFolder "F1" ∈ (runSync [] (some []) "k.kdbx" "F1" "N1").writes := by
  decide

/-- Claim C2, amended: a zero-length local file makes the run terminate with
    the fatal empty-file error before any remote file-write (file creation
    or file update) is attempted, and the only remote write that may already
    have happened is the creation of the backup folder during folder
    resolution. -/
theorem C2_empty_file_fatal_before_file_writes (st0 : DriveState)
    (name nfid nid : String) :
    (runSync st0 (some []) name nfid nid).exit =
      ExitStatus.fatal "File .kdbx is empty" ∧
    (runSync st0 (some []) name nfid nid).writes.filter
      RemoteWrite.isCreateFile = [] ∧
    (runSync st0 (some []) name nfid nid).writes.filter
      RemoteWrite.isUpdateFile = [] ∧
    (runSync st0 (some []) name nfid nid).drive = stateAfterFolder st0 nfid := by
  rw [runSync_empty st0 [] name nfid nid md5hex_nil]
  refine ⟨rfl, ?_, ?_, rfl⟩ <;>
    · unfold folderWrites
      cases listFolders st0 <;>
        simp [RemoteWrite.isCreateFile, RemoteWrite.isUpdateFile]

/-- Claim C3: the program intends the deferred Close of line 154 to release
    the local file handle on every exit path, but log.Fatalf exits through
    os.Exit, which does not run deferred functions; on the empty-file fatal
    path the handle has been opened and is not closed before the process
    ends. -/
theorem C3_fatal_path_skips_deferred_close :
    (runSync [] (some []) "passwords.kdbx" "FA" "NA").fileOpened = true ∧
    (runSync [] (some []) "passwords.kdbx" "FA" "NA").fileClosed = false ∧
    (runSync [] (some []) "passwords.kdbx" "FA" "NA").exit =
      ExitStatus.fatal "File .kdbx is empty" := by
  decide

/-- Claim C5: folder resolution uses the first query result when there is
    one and creates the folder only when the query returned nothing: the
    resolved id is the new id exactly in the zero-match case, and the
    createFolder calls a run issues are one for the new id in the zero-match
    case and none otherwise, so an existing folder is never duplicated. -/
theorem C5_folder_resolution (st0 : DriveState) (lf : Option (List Nat))
    (name nfid nid : String) :
    resolvedFolderId st0 nfid =
      (match listFolders st0 with
        | [] => nfid
        | f :: _ => f.id) ∧
    (runSync st0 lf name nfid nid).writes.filter RemoteWrite.isCreateFolder =
      (match listFolders st0 with
        | [] => [RemoteWrite.createFolder nfid]
        | _ :: _ => []) := by
  refine ⟨rfl, ?_⟩
  rw [filter_isCreateFolder_writes]
  rfl

/-- Folder resolution never issues a createFile call. -/
lemma createFile_not_mem_folderWrites (st0 : DriveState) (nfid id : String) :
    RemoteWrite.createFile id ∉ folderWrites st0 nfid := by
  unfold folderWrites
  cases listFolders st0 <;> simp

/-- The createFile calls among the folder-resolution writes are none. -/
lemma filter_isCreateFile_folderWrites (st0 : DriveState) (nfid : String) :
    (folderWrites st0 nfid).filter RemoteWrite.isCreateFile = [] := by
  unfold folderWrites
  cases listFolders st0 <;> simp [RemoteWrite.isCreateFile]

/-- When the backup folder had to be created, the file query of the same run
    finds nothing, provided the service-assigned folder id is fresh: not the
    root alias and not a parent of any pre-existing record. -/
lemma listFiles_after_created_folder (st0 : DriveState) (name nfid : String)
    (hFresh : ∀ f ∈ st0, nfid ∉ f.parents) (hRoot : nfid ≠ "root")
    (hfold : listFolders st0 = []) :
    listFiles (stateAfterFolder st0 nfid) name (resolvedFolderId st0 nfid) = [] := by
  simp only [stateAfterFolder, resolvedFolderId, hfold]
  unfold driveCreate
  rw [listFiles_append]
  have h1 : listFiles st0 name nfid = [] := by
    refine List.filter_eq_nil_iff.mpr fun f hf => ?_
    simp only [fileQuery, decide_eq_true_eq, not_and]
    exact fun _ => hFresh f hf
  have h2 : fileQuery name nfid
      (⟨nfid, "automatic_backups", folderMime, ["root"], md5hex [], []⟩ :
        DriveFile) = false := by
    simp [fileQuery, hRoot]
  rw [h1]
  simp [listFiles, List.filter_cons, h2]

/-- Claim C1: after a run on an opened local file that completes normally,
    the first remote file matching the local base name under the resolved
    backup folder carries exactly the hex MD5 hash of the local bytes,
    whichever branch (create, update, or hash-equal no-op) the run took. -/
theorem C1_remote_hash_equals_local (st0 : DriveState) (bytes : List Nat)
    (name nfid nid : String)
    (hnorm : (runSync st0 (some bytes) name nfid nid).exit = ExitStatus.normal) :
    ∃ f fs, listFiles (runSync st0 (some bytes) name nfid nid).drive name
      (resolvedFolderId st0 nfid) = f :: fs ∧ f.md5Checksum = md5hex bytes := by
  by_cases he : md5hex bytes = emptyMd5Hex
  · rw [runSync_empty st0 bytes name nfid nid he] at hnorm
    exact absurd hnorm (by simp)
  · cases hm : listFiles (stateAfterFolder st0 nfid) name
        (resolvedFolderId st0 nfid) with
    | nil =>
      rw [runSync_create st0 bytes name nfid nid he hm]
      refine ⟨⟨nid, name, "", [resolvedFolderId st0 nfid], md5hex bytes, bytes⟩,
        [], ?_, rfl⟩
      unfold driveCreate
      show listFiles _ name (resolvedFolderId st0 nfid) = _
      rw [listFiles_append, hm]
      simp [listFiles, List.filter_cons, fileQuery]
    | cons first rest =>
      by_cases heq : first.md5Checksum = md5hex bytes
      · rw [runSync_noop st0 bytes name nfid nid first rest he hm heq]
        exact ⟨first, rest, hm, heq⟩
      · rw [runSync_update st0 bytes name nfid nid first rest he hm heq]
        have hfq : fileQuery name (resolvedFolderId st0 nfid) first = true := by
          have hmem : first ∈ listFiles (stateAfterFolder st0 nfid) name
              (resolvedFolderId st0 nfid) := by
            rw [hm]; exact List.mem_cons_self ..
          exact (List.mem_filter.mp hmem).2
        have hupd : fileQuery name (resolvedFolderId st0 nfid)
            (updFile first name bytes) = true := by
          rw [fileQuery_true_iff] at hfq ⊢
          exact ⟨rfl, hfq.2⟩
        exact head_filter_driveUpdate _ first name bytes hupd
          (stateAfterFolder st0 nfid) rest hm

theorem C1_witness :
    (runSync [] (some [97]) "k.kdbx" "F1" "N1").exit = ExitStatus.normal ∧
    ∃ f fs, listFiles (runSync [] (some [97]) "k.kdbx" "F1" "N1").drive "k.kdbx"
      (resolvedFolderId [] "F1") = f :: fs ∧ f.md5Checksum = md5hex [97] :=
  ⟨by decide, C1_remote_hash_equals_local [] [97] "k.kdbx" "F1" "N1" (by decide)⟩

/-- Claim C7: when the file query matches and the stored hash differs from
    the local hash, the run updates the matched file in place — addressed by
    the matched id, with the metadata name equal to the name the file
    already carries — and issues no createFile call. -/
theorem C7_hash_mismatch_updates_in_place (st0 : DriveState) (bytes : List Nat)
    (name nfid nid : String) (first : DriveFile) (rest : List DriveFile)
    (hne : md5hex bytes ≠ emptyMd5Hex)
    (hmatch : listFiles (stateAfterFolder st0 nfid) name
      (resolvedFolderId st0 nfid) = first :: rest)
    (hdiff : first.md5Checksum ≠ md5hex bytes) :
    runSync st0 (some bytes) name nfid nid =
      ⟨ExitStatus.normal,
        driveUpdate (stateAfterFolder st0 nfid) first.id name bytes,
        folderWrites st0 nfid ++ [RemoteWrite.updateFile first.id],
        true, true⟩ ∧
    first.name = name ∧
    (∀ id, RemoteWrite.createFile id ∉
      (runSync st0 (some bytes) name nfid nid).writes) := by
  have hrun := runSync_update st0 bytes name nfid nid first rest hne hmatch hdiff
  refine ⟨hrun, ?_, ?_⟩
  · have hmem : first ∈ listFiles (stateAfterFolder st0 nfid) name
        (resolvedFolderId st0 nfid) := by
      rw [hmatch]; exact List.mem_cons_self ..
    have := (List.mem_filter.mp hmem).2
    rw [fileQuery_true_iff] at this
    exact this.1
  · intro id
    rw [hrun]
    simp only [List.mem_append, List.mem_singleton]
    rintro (hin | hin)
    · exact createFile_not_mem_folderWrites st0 nfid id hin
    · exact RemoteWrite.noConfusion hin

theorem C7_witness :
    md5hex [97] ≠ emptyMd5Hex ∧
    listFiles
      (stateAfterFolder
        [⟨"FID", "automatic_backups", folderMime, ["root"], "", []⟩,
         ⟨"GID", "k.kdbx", "", ["FID"], "deadbeef", [5]⟩] "F2")
      "k.kdbx"
      (resolvedFolderId
        [⟨"FID", "automatic_backups", folderMime, ["root"], "", []⟩,
         ⟨"GID", "k.kdbx", "", ["FID"], "deadbeef", [5]⟩] "F2") =
      ⟨"GID", "k.kdbx", "", ["FID"], "deadbeef", [5]⟩ :: [] ∧
    (⟨"GID", "k.kdbx", "", ["FID"], "deadbeef", [5]⟩ : DriveFile).md5Checksum ≠
      md5hex [97] ∧
    (runSync
      [⟨"FID", "automatic_backups", folderMime, ["root"], "", []⟩,
       ⟨"GID", "k.kdbx", "", ["FID"], "deadbeef", [5]⟩]
      (some [97]) "k.kdbx" "F2" "N2" =
        ⟨ExitStatus.normal,
          driveUpdate
            (stateAfterFolder
              [⟨"FID", "automatic_backups", folderMime, ["root"], "", []⟩,
               ⟨"GID", "k.kdbx", "", ["FID"], "deadbeef", [5]⟩] "F2")
            "GID" "k.kdbx" [97],
          folderWrites
            [⟨"FID", "automatic_backups", folderMime, ["root"], "", []⟩,
             ⟨"GID", "k.kdbx", "", ["FID"], "deadbeef", [5]⟩] "F2" ++
            [RemoteWrite.updateFile "GID"],
          true, true⟩ ∧
      (⟨"GID", "k.kdbx", "", ["FID"], "deadbeef", [5]⟩ : DriveFile).name =
        "k.kdbx" ∧
      (∀ id, RemoteWrite.createFile id ∉
        (runSync
          [⟨"FID", "automatic_backups", folderMime, ["root"], "", []⟩,
           ⟨"GID", "k.kdbx", "", ["FID"], "deadbeef", [5]⟩]
          (some [97]) "k.kdbx" "F2" "N2").writes)) :=
  ⟨by decide, by decide, by decide,
    C7_hash_mismatch_updates_in_place
      [⟨"FID", "automatic_backups", folderMime, ["root"], "", []⟩,
       ⟨"GID", "k.kdbx", "", ["FID"], "deadbeef", [5]⟩]
      [97] "k.kdbx" "F2" "N2"
      ⟨"GID", "k.kdbx", "", ["FID"], "deadbeef", [5]⟩ []
      (by decide) (by decide) (by decide)⟩

/-- Claim C4: starting from a remote state that has unique record ids, at
    most one file with the local base name under the resolved backup folder,
    and in which a freshly assigned folder id is genuinely fresh, a normally
    completing run leaves at most one file with that name under the folder,
    and it issues a createFile call exactly when the file query found no
    match. -/
theorem C4_at_most_one_match (st0 : DriveState) (bytes : List Nat)
    (name nfid nid : String)
    (hInit : (listFiles st0 name (resolvedFolderId st0 nfid)).length ≤ 1)
    (hFresh : ∀ f ∈ st0, nfid ∉ f.parents)
    (hRoot : nfid ≠ "root")
    (hIds : ∀ x ∈ st0, ∀ y ∈ st0, x.id = y.id → x = y)
    (hnorm : (runSync st0 (some bytes) name nfid nid).exit = ExitStatus.normal) :
    (listFiles (runSync st0 (some bytes) name nfid nid).drive name
      (resolvedFolderId st0 nfid)).length ≤ 1 ∧
    (RemoteWrite.createFile nid ∈ (runSync st0 (some bytes) name nfid nid).writes ↔
      listFiles (stateAfterFolder st0 nfid) name (resolvedFolderId st0 nfid) = []) := by
  by_cases he : md5hex bytes = emptyMd5Hex
  · rw [runSync_empty st0 bytes name nfid nid he] at hnorm
    exact absurd hnorm (by simp)
  · cases hm : listFiles (stateAfterFolder st0 nfid) name
        (resolvedFolderId st0 nfid) with
    | nil =>
      rw [runSync_create st0 bytes name nfid nid he hm]
      constructor
      · show (listFiles _ name (resolvedFolderId st0 nfid)).length ≤ 1
        unfold driveCreate
        rw [listFiles_append, hm]
        simp only [List.nil_append]
        unfold listFiles
        refine le_trans (List.length_filter_le _ _) ?_
        simp
      · simp [hm]
    | cons first rest =>
      -- the cons case forces the folder to have pre-existed
      have hfoldne : listFolders st0 ≠ [] := by
        intro hfold
        rw [listFiles_after_created_folder st0 name nfid hFresh hRoot hfold] at hm
        exact List.noConfusion hm
      obtain ⟨g, gs, hfold⟩ := List.exists_cons_of_ne_nil hfoldne
      have hsaf : stateAfterFolder st0 nfid = st0 := by
        simp only [stateAfterFolder, hfold]
      have hm0 : listFiles st0 name (resolvedFolderId st0 nfid) = first :: rest := by
        have h := hm
        rw [hsaf] at h
        exact h
      have hfirstmem : first ∈ st0 := by
        have : first ∈ listFiles st0 name (resolvedFolderId st0 nfid) := by
          rw [hm0]; exact List.mem_cons_self ..
        exact (List.mem_filter.mp this).1
      have hfq : fileQuery name (resolvedFolderId st0 nfid) first = true := by
        have : first ∈ listFiles st0 name (resolvedFolderId st0 nfid) := by
          rw [hm0]; exact List.mem_cons_self ..
        exact (List.mem_filter.mp this).2
      by_cases heq : first.md5Checksum = md5hex bytes
      · rw [runSync_noop st0 bytes name nfid nid first rest he hm heq]
        refine ⟨?_, iff_of_false
          (createFile_not_mem_folderWrites st0 nfid nid)
          (List.cons_ne_nil first rest)⟩
        show (listFiles (stateAfterFolder st0 nfid) name
          (resolvedFolderId st0 nfid)).length ≤ 1
        rw [hsaf]
        exact hInit
      · rw [runSync_update st0 bytes name nfid nid first rest he hm heq]
        refine ⟨?_, iff_of_false ?_ (List.cons_ne_nil first rest)⟩
        · show (listFiles (driveUpdate (stateAfterFolder st0 nfid) first.id
            name bytes) name (resolvedFolderId st0 nfid)).length ≤ 1
          rw [hsaf]
          have hq : fileQuery name (resolvedFolderId st0 nfid)
              (updFile first name bytes) =
              fileQuery name (resolvedFolderId st0 nfid) first := by
            rw [hfq]
            rw [fileQuery_true_iff] at hfq ⊢
            exact ⟨rfl, hfq.2⟩
          have huniq : ∀ x ∈ st0, x.id = first.id → x = first :=
            fun x hx hxid => hIds x hx first hfirstmem hxid
          calc (listFiles (driveUpdate st0 first.id name bytes) name
                (resolvedFolderId st0 nfid)).length
              = (listFiles st0 name (resolvedFolderId st0 nfid)).length :=
                length_filter_driveUpdate _ first name bytes hq st0 huniq
            _ ≤ 1 := hInit
        · simp only [List.mem_append, List.mem_singleton]
          rintro (hin | hin)
          · exact absurd hin (createFile_not_mem_folderWrites st0 nfid nid)
          · exact RemoteWrite.noConfusion hin

theorem C4_witness :
    (listFiles [] "k.kdbx" (resolvedFolderId [] "F3")).length ≤ 1 ∧
    "F3" ≠ "root" ∧
    (runSync [] (some [97]) "k.kdbx" "F3" "N3").exit = ExitStatus.normal ∧
    ((listFiles (runSync [] (some [97]) "k.kdbx" "F3" "N3").drive "k.kdbx"
        (resolvedFolderId [] "F3")).length ≤ 1 ∧
      (RemoteWrite.createFile "N3" ∈ (runSync [] (some [97]) "k.kdbx" "F3" "N3").writes ↔
        listFiles (stateAfterFolder [] "F3") "k.kdbx" (resolvedFolderId [] "F3") = [])) :=
  ⟨by decide, by decide, by decide,
    C4_at_most_one_match [] [97] "k.kdbx" "F3" "N3" (by decide)
      (by simp) (by decide) (by simp) (by decide)⟩

/-- Claim C6: when the first run takes the create branch (its file query
    found nothing) on a non-empty local file, that run completes normally
    and issues exactly one createFile call, and a second run over the
    resulting remote state with the same unchanged local file is a pure
    no-op: it completes normally, issues no remote write at all, and leaves
    the remote state untouched, because the stored hash of the file the
    first run created equals the freshly computed local hash. -/
theorem C6_second_run_is_noop (st0 : DriveState) (bytes : List Nat)
    (name nfid1 nid1 nfid2 nid2 : String)
    (hne : md5hex bytes ≠ emptyMd5Hex)
    (hno : listFiles (stateAfterFolder st0 nfid1) name
      (resolvedFolderId st0 nfid1) = []) :
    (runSync st0 (some bytes) name nfid1 nid1).exit = ExitStatus.normal ∧
    ((runSync st0 (some bytes) name nfid1 nid1).writes.filter
      RemoteWrite.isCreateFile).length = 1 ∧
    runSync (runSync st0 (some bytes) name nfid1 nid1).drive (some bytes)
        name nfid2 nid2 =
      ⟨ExitStatus.normal, (runSync st0 (some bytes) name nfid1 nid1).drive,
        [], true, true⟩ := by
  obtain ⟨f, fs, hcons, hfid⟩ := listFolders_stateAfterFolder st0 nfid1
  have h1 := runSync_create st0 bytes name nfid1 nid1 hne hno
  have hd : (runSync st0 (some bytes) name nfid1 nid1).drive =
      stateAfterFolder st0 nfid1 ++
        [⟨nid1, name, "", [resolvedFolderId st0 nfid1], md5hex bytes, bytes⟩] := by
    rw [h1]
    simp [driveCreate]
  refine ⟨by rw [h1], ?_, ?_⟩
  · rw [h1]
    show ((folderWrites st0 nfid1 ++ [RemoteWrite.createFile nid1]).filter
      RemoteWrite.isCreateFile).length = 1
    rw [List.filter_append, filter_isCreateFile_folderWrites]
    simp [RemoteWrite.isCreateFile]
  · rw [hd]
    have hnf : folderQuery
        (⟨nid1, name, "", [resolvedFolderId st0 nfid1], md5hex bytes, bytes⟩ :
          DriveFile) = false := by
      simp [folderQuery, folderMime]
    have hful : listFolders (stateAfterFolder st0 nfid1 ++
        [⟨nid1, name, "", [resolvedFolderId st0 nfid1], md5hex bytes, bytes⟩]) =
        f :: fs := by
      rw [listFolders_append_nonfolder _ _ hnf]
      exact hcons
    have hres : resolvedFolderId (stateAfterFolder st0 nfid1 ++
        [⟨nid1, name, "", [resolvedFolderId st0 nfid1], md5hex bytes, bytes⟩])
        nfid2 = resolvedFolderId st0 nfid1 :=
      (resolvedFolderId_of_cons _ nfid2 f fs hful).trans hfid
    have hsaf : stateAfterFolder (stateAfterFolder st0 nfid1 ++
        [⟨nid1, name, "", [resolvedFolderId st0 nfid1], md5hex bytes, bytes⟩])
        nfid2 = stateAfterFolder st0 nfid1 ++
        [⟨nid1, name, "", [resolvedFolderId st0 nfid1], md5hex bytes, bytes⟩] :=
      stateAfterFolder_of_cons _ nfid2 f fs hful
    have hfw2 : folderWrites (stateAfterFolder st0 nfid1 ++
        [⟨nid1, name, "", [resolvedFolderId st0 nfid1], md5hex bytes, bytes⟩])
        nfid2 = [] :=
      folderWrites_of_cons _ nfid2 f fs hful
    have hm2 : listFiles
        (stateAfterFolder (stateAfterFolder st0 nfid1 ++
          [⟨nid1, name, "", [resolvedFolderId st0 nfid1], md5hex bytes, bytes⟩])
          nfid2) name
        (resolvedFolderId (stateAfterFolder st0 nfid1 ++
          [⟨nid1, name, "", [resolvedFolderId st0 nfid1], md5hex bytes, bytes⟩])
          nfid2) =
        (⟨nid1, name, "", [resolvedFolderId st0 nfid1], md5hex bytes, bytes⟩ :
          DriveFile) :: [] := by
      rw [hsaf, hres, listFiles_append, hno]
      simp [listFiles, List.filter_cons, fileQuery]
    rw [runSync_noop _ bytes name nfid2 nid2 _ [] hne hm2 rfl, hsaf, hfw2]

theorem C6_witness :
    md5hex [97] ≠ emptyMd5Hex ∧
    listFiles (stateAfterFolder [] "F4") "k.kdbx" (resolvedFolderId [] "F4") = [] ∧
    ((runSync [] (some [97]) "k.kdbx" "F4" "N4").exit = ExitStatus.normal ∧
      ((runSync [] (some [97]) "k.kdbx" "F4" "N4").writes.filter
        RemoteWrite.isCreateFile).length = 1 ∧
      runSync (runSync [] (some [97]) "k.kdbx" "F4" "N4").drive (some [97])
          "k.kdbx" "F5" "N5" =
        ⟨ExitStatus.normal, (runSync [] (some [97]) "k.kdbx" "F4" "N4").drive,
          [], true, true⟩) :=
  ⟨by decide, by decide,
    C6_second_run_is_noop [] [97] "k.kdbx" "F4" "N4" "F5" "N5"
      (by decide) (by decide)⟩

end KeepassxBackup
